import Mathlib

/-!
Shallow embedding of the resilient download engine of `scripts/download_pdb.py`
and `scripts/download_sabdab.py`.

The filesystem is modelled as an association list from path to file content,
the network as a function from identifier to a `NetResult` (HTTP status plus
body, or a raised transport exception).  Machine state that the scripts keep in
`self` (the `failed_downloads` dict) is passed explicitly.  Wall-clock time is
an `Int`; `time.sleep` advances it, a batch round is treated as instantaneous.
Every fetch through the network is counted in a `requests` field so that
"no network request was issued" is an observable statement.
-/

/-- Outcome of `requests.get` for one identifier: an HTTP response with a
status code and a body, or a raised exception carrying its text. -/
inductive NetResult where
  | status (code : Nat) (body : String)
  | exc (msg : String)
deriving DecidableEq

/-- The network: what `requests.get` would yield for each identifier. -/
def Net : Type := String → NetResult

/-- The filesystem: an association list from path to file content. -/
abbrev Fs : Type := List (String × String)

/-- `os.path.exists`. -/
def hasFile (fs : Fs) (path : String) : Bool :=
  (fs.lookup path).isSome

/-- `open(path, "w"/"wb")` followed by writing `content`: overwrite if the
path exists, otherwise create it. -/
def setFile (fs : Fs) (path content : String) : Fs :=
  if (fs.lookup path).isSome then
    fs.map (fun q => if q.1 = path then (path, content) else q)
  else
    fs ++ [(path, content)]

/-- `DownloadFailure` (identical in both scripts): one record of the
`failed_downloads` dict. -/
structure DownloadFailure where
  pdb_id : String
  error_msg : String
  attempt : Nat
  timestamp : Int
deriving DecidableEq

/-- `self.failed_downloads : Dict[str, DownloadFailure]`, as an association
list in insertion order with unique keys. -/
abbrev Ledger : Type := List (String × DownloadFailure)

/-- `_record_failure(pdb_id, error_msg)` of both scripts: if the identifier is
already present, increment its attempt counter and overwrite the message and
timestamp in place; otherwise insert a fresh record with `attempt = 1`
(the `DownloadFailure.__init__` default) and the current time. -/
def record_failure (led : Ledger) (pdb_id error_msg : String) (now : Int) : Ledger :=
  if (List.lookup pdb_id led).isSome then
    led.map (fun p =>
      if p.1 = pdb_id then
        (pdb_id, ⟨p.2.pdb_id, error_msg, p.2.attempt + 1, now⟩)
      else p)
  else
    led ++ [(pdb_id, ⟨pdb_id, error_msg, 1, now⟩)]

/-- The list comprehension at the top of `_retry_failed_downloads`: identifiers
whose attempt count is below the cap and whose last failure is at least the
cooldown in the past. -/
def retry_ids (led : Ledger) (now : Int) (cap : Nat) (cooldown : Int) : List String :=
  (led.filter (fun p =>
    decide (p.2.attempt < cap) && decide (now - p.2.timestamp ≥ cooldown))).map Prod.fst

/-- The post-round cleanup loop of `_retry_failed_downloads`: for every key in
the retried subset, delete it when its attempt count reached the cap, else
delete it when its output artifact (at `path id`) now exists on disk; keys
outside the retried subset are skipped. -/
def prune_ledger (led : Ledger) (retried : List String) (cap : Nat) (fs : Fs)
    (path : String → String) : Ledger :=
  led.filter (fun p =>
    !(decide (p.1 ∈ retried)) ||
      (decide (p.2.attempt < cap) && !(hasFile fs (path p.1))))

/-- Result of one `_download_single_file` call: the `(success, message)` pair
the function returns, the filesystem after the call, and how many network
requests the call issued. -/
structure SingleResult where
  success : Bool
  message : String
  fs : Fs
  requests : Nat
deriving DecidableEq

/-- A fetcher: `_download_single_file` as a function of the current
filesystem and the identifier. -/
def Fetch : Type := Fs → String → SingleResult

/-- Output path of the PDB script: `os.path.join("datasets/raw/pdb", f"(id).cif")`. -/
def pdb_output_path (pdb_id : String) : String :=
  "datasets/raw/pdb/" ++ pdb_id ++ ".cif"

/-- `PDBDownloader._download_single_file`: always issues the GET request (there
is no existence short-circuit in this variant); on status 200 writes the body
to the output path and reports success, on any other status or on an exception
reports failure and leaves the filesystem untouched. -/
def pdb_download_single_file (net : Net) (fs : Fs) (pdb_id : String) : SingleResult :=
  match net pdb_id with
  | .status code body =>
    if code = 200 then
      ⟨true, "Successfully downloaded " ++ pdb_id ++ ".cif",
        setFile fs (pdb_output_path pdb_id) body, 1⟩
    else
      ⟨false, "Failed to download " ++ pdb_id ++ ".cif, status code: " ++ toString code,
        fs, 1⟩
  | .exc e =>
      ⟨false, "Error downloading " ++ pdb_id ++ ".cif: " ++ e, fs, 1⟩

/-- Output path of the SAbDab script: `os.path.join("datasets/raw/sabdab", f"(id).pdb")`. -/
def sabdab_output_path (pdb_id : String) : String :=
  "datasets/raw/sabdab/" ++ pdb_id ++ ".pdb"

/-- `SabdabDownloader._download_single_file`: if the output file already exists
it returns success at once with no network request; otherwise it issues the GET
request and proceeds as in the PDB variant. -/
def sabdab_download_single_file (net : Net) (fs : Fs) (pdb_id : String) : SingleResult :=
  let output_file := sabdab_output_path pdb_id
  if hasFile fs output_file then
    ⟨true, "Already downloaded " ++ pdb_id ++ ".pdb", fs, 0⟩
  else
    match net pdb_id with
    | .status code body =>
      if code = 200 then
        ⟨true, "Successfully downloaded " ++ pdb_id ++ ".pdb",
          setFile fs output_file body, 1⟩
      else
        ⟨false, "Failed to download " ++ pdb_id ++ ".pdb, status code: " ++ toString code,
          fs, 1⟩
    | .exc e =>
        ⟨false, "Error downloading " ++ pdb_id ++ ".pdb: " ++ e, fs, 1⟩

/-- State threaded through `_process_batch`: the filesystem, the failure
ledger, the number of network requests issued so far, and the stream of
`(identifier, success, message)` outcomes in completion order. -/
structure BatchState where
  fs : Fs
  led : Ledger
  requests : Nat
  results : List (String × Bool × String)
deriving DecidableEq

/-- Handling of one completed future in `_process_batch`: consume the
`(success, result)` pair, and on failure call `_record_failure`. -/
def process_one (fetch : Fetch) (now : Int) (st : BatchState) (pdb_id : String) :
    BatchState :=
  let r := fetch st.fs pdb_id
  { fs := r.fs
    led := if r.success then st.led else record_failure st.led pdb_id r.message now
    requests := st.requests + r.requests
    results := st.results ++ [(pdb_id, r.success, r.message)] }

/-- `_process_batch`: every submitted identifier's outcome is consumed exactly
once; the worker pool is sequentialised, one completion at a time. -/
def process_batch (fetch : Fetch) (now : Int) (st : BatchState) (ids : List String) :
    BatchState :=
  ids.foldl (process_one fetch now) st

/-- One `f.write(...)` line of `_save_failure_summary`. -/
def failureLine (p : String × DownloadFailure) : String :=
  p.1 ++ "\t" ++ toString p.2.attempt ++ "\t" ++ p.2.error_msg ++ "\n"

/-- `_save_failure_summary`: with an empty ledger it returns before any I/O
(`none`); otherwise it opens the fixed report path and writes one
tab-separated line per remaining record. -/
def save_failure_summary (path : String) (led : Ledger) : Option (String × List String) :=
  if led.isEmpty then none
  else some (path, led.foldl (fun acc p => acc ++ [failureLine p]) [])

/-- State of `_retry_failed_downloads` between loop iterations. -/
structure DrainState where
  fs : Fs
  led : Ledger
  now : Int
  rounds : Nat
  requests : Nat
deriving DecidableEq

/-- One iteration of the `while self.failed_downloads:` loop body: compute the
eligible subset; when it is empty, sleep for the poll interval; otherwise run
`_process_batch` on exactly that subset and prune resolved or exhausted
entries. -/
def drain_step (fetch : Fetch) (path : String → String) (cap : Nat)
    (cooldown poll : Int) (s : DrainState) : DrainState :=
  let retried := retry_ids s.led s.now cap cooldown
  if retried.isEmpty then
    { s with now := s.now + poll }
  else
    let st := process_batch fetch s.now ⟨s.fs, s.led, s.requests, []⟩ retried
    { fs := st.fs
      led := prune_ledger st.led retried cap st.fs path
      now := s.now
      rounds := s.rounds + 1
      requests := st.requests }

/-- The `while self.failed_downloads:` loop itself, with explicit fuel: `none`
means the given number of iterations did not reach an empty ledger. -/
def drain_fuel (fetch : Fetch) (path : String → String) (cap : Nat)
    (cooldown poll : Int) : Nat → DrainState → Option DrainState
  | 0, _ => none
  | n + 1, s =>
    if s.led.isEmpty then some s
    else drain_fuel fetch path cap cooldown poll n (drain_step fetch path cap cooldown poll s)

/-- `MAX_RETRY_ATTEMPTS` of both scripts. -/
def MAX_RETRY_ATTEMPTS : Nat := 3

/-- `RETRY_WAIT_TIME` of both scripts (seconds before a failure is retried). -/
def RETRY_WAIT_TIME : Int := 300

/-- The `time.sleep(60)` poll interval of the retry loop. -/
def RETRY_POLL_INTERVAL : Int := 60

/-- `download_structures` after the identifier lists have been read: one batch
pass over the identifiers, then, when failures remain, the retry drain, and
finally `_save_failure_summary` on whatever is left in the ledger.  Returns
the final filesystem, ledger and report, or `none` when the drain fuel runs
out. -/
def download_structures_run (fetch : Fetch) (path : String → String)
    (reportPath : String) (fuel : Nat) (fs : Fs) (ids : List String) (t0 : Int) :
    Option (Fs × Ledger × Option (String × List String)) :=
  let st := process_batch fetch t0 ⟨fs, [], 0, []⟩ ids
  let drained : Option DrainState :=
    if st.led.isEmpty then some ⟨st.fs, st.led, t0, 0, st.requests⟩
    else drain_fuel fetch path MAX_RETRY_ATTEMPTS RETRY_WAIT_TIME RETRY_POLL_INTERVAL
      fuel ⟨st.fs, st.led, t0, 0, st.requests⟩
  drained.map (fun s => (s.fs, s.led, save_failure_summary reportPath s.led))

/-- The summary file path checked by `SabdabDownloader.fetch_pdb_ids`. -/
def sabdab_summary_path : String := "datasets/raw/sabdab_ids/sabdab_summary_all.tsv"

/-- `f.readlines()`: split on newlines; a trailing newline does not produce an
extra empty line. -/
def readlines (content : String) : List String :=
  let ls := content.splitOn "\n"
  if ls.getLast? = some "" then ls.dropLast else ls

/-- `SabdabDownloader.fetch_pdb_ids`: raise `FileNotFoundError` when the
summary file is missing; otherwise read all lines but the header, take the
first tab-separated column of each stripped line, and de-duplicate
(`list(set(...))`, modelled as keeping first occurrences). -/
def sabdab_fetch_pdb_ids (fs : Fs) : Except String (List String) :=
  match List.lookup sabdab_summary_path fs with
  | none => .error ("Summary file not found: " ++ sabdab_summary_path)
  | some content =>
      .ok ((((readlines content).drop 1).map
        (fun line => (line.trim.splitOn "\t").headD "")).dedup)

/-- `main` of `download_sabdab.py`: fetch the identifier list, then download;
the `FileNotFoundError` from `fetch_pdb_ids` propagates uncaught, so an error
ends the run before any batch processing. -/
def sabdab_main (net : Net) (fuel : Nat) (fs : Fs) (t0 : Int) :
    Except String (Option (Fs × Ledger × Option (String × List String))) :=
  match sabdab_fetch_pdb_ids fs with
  | .error e => .error e
  | .ok ids =>
      .ok (download_structures_run (sabdab_download_single_file net)
        sabdab_output_path "datasets/failed_downloads_sabdab.txt" fuel fs ids t0)

/-! ## Helper lemmas -/

/-- Keys of the ledger, in order. -/
def ledger_keys (led : Ledger) : List String := led.map Prod.fst

theorem lookup_cons_entry (k : String) (p : String × DownloadFailure) (rest : Ledger) :
    List.lookup k (p :: rest) =
      if k = p.1 then some p.2 else List.lookup k rest := by
  cases p with
  | mk a v =>
    rw [List.lookup_cons]
    by_cases hk : k = a
    · simp [hk]
    · simp [hk, beq_false_of_ne hk]

theorem lookup_isSome_iff_mem_keys (k : String) :
    ∀ led : Ledger, (List.lookup k led).isSome = true ↔ k ∈ ledger_keys led := by
  intro led
  induction led with
  | nil => simp [ledger_keys]
  | cons p rest ih =>
    rw [lookup_cons_entry]
    by_cases hk : k = p.1
    · simp [ledger_keys, hk]
    · rw [if_neg hk, show ledger_keys (p :: rest) = p.1 :: ledger_keys rest from rfl,
        List.mem_cons, ih]
      simp [hk]

theorem lookup_map_overwrite (k : String) (upd : DownloadFailure → DownloadFailure) :
    ∀ (led : Ledger) (f : DownloadFailure), List.lookup k led = some f →
      List.lookup k (led.map (fun p => if p.1 = k then (k, upd p.2) else p)) =
        some (upd f) := by
  intro led
  induction led with
  | nil => intro f h; simp at h
  | cons p rest ih =>
    intro f h
    rw [lookup_cons_entry] at h
    by_cases hk : k = p.1
    · rw [if_pos hk] at h
      cases h
      simp only [List.map_cons, if_pos hk.symm]
      rw [lookup_cons_entry, if_pos rfl]
    · rw [if_neg hk] at h
      simp only [List.map_cons]
      by_cases hk2 : p.1 = k
      · exact absurd hk2.symm hk
      · rw [if_neg hk2, lookup_cons_entry, if_neg hk]
        exact ih f h

theorem lookup_append_right_of_none (k : String) :
    ∀ (led : Ledger) (q : String × DownloadFailure), List.lookup k led = none →
      List.lookup k (led ++ [q]) = List.lookup k [q] := by
  intro led
  induction led with
  | nil => intro q _; rfl
  | cons p rest ih =>
    intro q h
    rw [lookup_cons_entry] at h
    by_cases hk : k = p.1
    · rw [if_pos hk] at h; cases h
    · rw [if_neg hk] at h
      rw [List.cons_append, lookup_cons_entry, if_neg hk]
      exact ih q h

/-- Membership description of the retry comprehension, shared by the
eligibility claim and the termination development. -/
theorem mem_retry_ids_iff (led : Ledger) (now : Int) (cap : Nat) (cooldown : Int)
    (pdb_id : String) :
    pdb_id ∈ retry_ids led now cap cooldown ↔
      ∃ f, (pdb_id, f) ∈ led ∧ f.attempt < cap ∧ now - f.timestamp ≥ cooldown := by
  unfold retry_ids
  simp only [List.mem_map, List.mem_filter, Bool.and_eq_true, decide_eq_true_eq]
  constructor
  · rintro ⟨⟨k, f⟩, ⟨hmem, hlt, hcd⟩, rfl⟩
    exact ⟨f, hmem, hlt, hcd⟩
  · rintro ⟨f, hmem, hlt, hcd⟩
    exact ⟨(pdb_id, f), ⟨hmem, hlt, hcd⟩, rfl⟩

theorem foldl_write_lines (led : Ledger) :
    ∀ acc : List String,
      led.foldl (fun acc p => acc ++ [failureLine p]) acc = acc ++ led.map failureLine := by
  induction led with
  | nil => intro acc; simp
  | cons p rest ih => intro acc; simp [List.foldl, ih]

/-! ## Claim theorems (functional contracts) -/

/-- C4: recording a failure for an identifier already present in the ledger
increments its attempt counter by one and overwrites its last-error message
and last-failure timestamp; recording a failure for an absent identifier
inserts a new record with attempt equal to 1. -/
theorem record_failure_spec (led : Ledger) (pdb_id error_msg : String) (now : Int) :
    (∀ f, List.lookup pdb_id led = some f →
      List.lookup pdb_id (record_failure led pdb_id error_msg now) =
        some ⟨f.pdb_id, error_msg, f.attempt + 1, now⟩) ∧
    (List.lookup pdb_id led = none →
      List.lookup pdb_id (record_failure led pdb_id error_msg now) =
        some ⟨pdb_id, error_msg, 1, now⟩) := by
  constructor
  · intro f h
    unfold record_failure
    rw [h]
    simpa using
      lookup_map_overwrite pdb_id
        (fun d => ⟨d.pdb_id, error_msg, d.attempt + 1, now⟩) led f h
  · intro h
    unfold record_failure
    rw [h]
    simp only [Option.isSome_none, Bool.false_eq_true, if_false]
    rw [lookup_append_right_of_none pdb_id led _ h]
    simp [List.lookup]

/-- C4 witness: on a concrete ledger holding `"1ABC"` at attempt 2, a new
failure moves it to attempt 3 with the fresh message and time, and a failure
for the absent `"2XYZ"` inserts a record at attempt 1. -/
theorem record_failure_spec_witness :
    List.lookup "1ABC"
        (record_failure [("1ABC", ⟨"1ABC", "old", 2, 5⟩)] "1ABC" "new" 77) =
      some ⟨"1ABC", "new", 3, 77⟩ ∧
    List.lookup "2XYZ"
        (record_failure [("1ABC", ⟨"1ABC", "old", 2, 5⟩)] "2XYZ" "boom" 88) =
      some ⟨"2XYZ", "boom", 1, 88⟩ := by
  constructor
  · exact (record_failure_spec [("1ABC", ⟨"1ABC", "old", 2, 5⟩)] "1ABC" "new" 77).1
      ⟨"1ABC", "old", 2, 5⟩ (by decide)
  · exact (record_failure_spec [("1ABC", ⟨"1ABC", "old", 2, 5⟩)] "2XYZ" "boom" 88).2
      (by decide)

/-- C5: the retried subset is exactly the set of identifiers whose record has
attempt strictly below the cap and whose elapsed time since the last failure
is at least the cooldown. -/
theorem retry_eligibility_spec (led : Ledger) (now : Int) (cap : Nat)
    (cooldown : Int) (pdb_id : String) :
    pdb_id ∈ retry_ids led now cap cooldown ↔
      ∃ f, (pdb_id, f) ∈ led ∧ f.attempt < cap ∧ now - f.timestamp ≥ cooldown :=
  mem_retry_ids_iff led now cap cooldown pdb_id

/-- C8: the report writer performs no I/O on an empty ledger; on a non-empty
ledger it writes to the fixed report path exactly one tab-separated line per
remaining record, of the form identifier, attempt count, last error message. -/
theorem save_failure_summary_spec (path : String) (led : Ledger) :
    (led = [] → save_failure_summary path led = none) ∧
    (led ≠ [] →
      save_failure_summary path led = some (path, led.map failureLine) ∧
      (led.map failureLine).length = led.length) := by
  constructor
  · rintro rfl; rfl
  · intro h
    refine ⟨?_, by simp⟩
    unfold save_failure_summary
    rw [if_neg (by simpa [List.isEmpty_iff] using h)]
    rw [foldl_write_lines led []]
    simp

/-- C8 witness: a two-record ledger produces exactly its two report lines. -/
theorem save_failure_summary_spec_witness :
    save_failure_summary "datasets/failed_downloads_pdb_cif.txt"
        [("1ABC", ⟨"1ABC", "status code: 404", 2, 5⟩),
         ("2XYZ", ⟨"2XYZ", "timed out", 1, 9⟩)] =
      some ("datasets/failed_downloads_pdb_cif.txt",
        ["1ABC\t2\tstatus code: 404\n", "2XYZ\t1\ttimed out\n"]) :=
  ((save_failure_summary_spec "datasets/failed_downloads_pdb_cif.txt"
      [("1ABC", ⟨"1ABC", "status code: 404", 2, 5⟩),
       ("2XYZ", ⟨"2XYZ", "timed out", 1, 9⟩)]).2 (by decide)).1

/-- C9: when the identifier source listing is missing, the whole run fails at
once with the `FileNotFoundError` message and no batch processing occurs: the
run's result is the error alone. -/
theorem sabdab_missing_summary_fatal (net : Net) (fuel : Nat) (fs : Fs) (t0 : Int)
    (h : List.lookup sabdab_summary_path fs = none) :
    sabdab_main net fuel fs t0 =
      .error ("Summary file not found: " ++ sabdab_summary_path) := by
  unfold sabdab_main sabdab_fetch_pdb_ids
  rw [h]

/-- C9 witness: on an empty filesystem the run is exactly the fatal error. -/
theorem sabdab_missing_summary_fatal_witness :
    sabdab_main (fun _ => NetResult.exc "unreachable") 5 [] 0 =
      .error ("Summary file not found: " ++ sabdab_summary_path) :=
  sabdab_missing_summary_fatal (fun _ => NetResult.exc "unreachable") 5 [] 0 (by decide)

/-- C10: on the error path of a single-file download (non-success status or
transport exception) the filesystem is unchanged — no output file is created
for the identifier — and the returned failure message is built from the
identifier together with the status code, respectively the exception text.
Stated for both script variants; for the SAbDab variant the error path
presumes the output file was not already present (otherwise the call
short-circuits to success). -/
theorem download_single_file_error_frame (net : Net) (fs : Fs) (pdb_id : String)
    (code : Nat) (body e : String) :
    (net pdb_id = .status code body → code ≠ 200 →
      pdb_download_single_file net fs pdb_id =
        ⟨false, "Failed to download " ++ pdb_id ++ ".cif, status code: " ++ toString code,
          fs, 1⟩) ∧
    (net pdb_id = .exc e →
      pdb_download_single_file net fs pdb_id =
        ⟨false, "Error downloading " ++ pdb_id ++ ".cif: " ++ e, fs, 1⟩) ∧
    (hasFile fs (sabdab_output_path pdb_id) = false →
      net pdb_id = .status code body → code ≠ 200 →
      sabdab_download_single_file net fs pdb_id =
        ⟨false, "Failed to download " ++ pdb_id ++ ".pdb, status code: " ++ toString code,
          fs, 1⟩) ∧
    (hasFile fs (sabdab_output_path pdb_id) = false →
      net pdb_id = .exc e →
      sabdab_download_single_file net fs pdb_id =
        ⟨false, "Error downloading " ++ pdb_id ++ ".pdb: " ++ e, fs, 1⟩) := by
  refine ⟨?_, ?_, ?_, ?_⟩
  · intro hnet hcode
    unfold pdb_download_single_file
    rw [hnet]
    simp [hcode]
  · intro hnet
    unfold pdb_download_single_file
    rw [hnet]
  · intro hmiss hnet hcode
    unfold sabdab_download_single_file
    simp only [hmiss, Bool.false_eq_true, if_false]
    rw [hnet]
    simp [hcode]
  · intro hmiss hnet
    unfold sabdab_download_single_file
    simp only [hmiss, Bool.false_eq_true, if_false]
    rw [hnet]

/-- C10 witness: a 404 on the PDB variant and a timeout exception on the
SAbDab variant, both on an empty filesystem, return the expected failure
records and leave the filesystem empty. -/
theorem download_single_file_error_frame_witness :
    pdb_download_single_file (fun _ => NetResult.status 404 "") [] "1ABC" =
      ⟨false, "Failed to download " ++ "1ABC" ++ ".cif, status code: " ++ toString 404,
        [], 1⟩ ∧
    sabdab_download_single_file (fun _ => NetResult.exc "timed out") [] "1ABC" =
      ⟨false, "Error downloading " ++ "1ABC" ++ ".pdb: " ++ "timed out", [], 1⟩ := by
  constructor
  · exact (download_single_file_error_frame (fun _ => NetResult.status 404 "") [] "1ABC"
      404 "" "timed out").1 rfl (by decide)
  · exact (download_single_file_error_frame (fun _ => NetResult.exc "timed out") [] "1ABC"
      404 "" "timed out").2.2.2 (by decide) rfl

/-- C6 counterexample: the claim asserts every fetch short-circuits on an
already-present artifact, but `PDBDownloader._download_single_file` has no
existence check: with `1ABC.cif` already on disk and the network failing, the
call still issues one request and even reports failure. -/
theorem pdb_fetch_ignores_existing_file :
    hasFile [("datasets/raw/pdb/1ABC.cif", "data")] (pdb_output_path "1ABC") = true ∧
    ¬ ((pdb_download_single_file (fun _ => NetResult.exc "timed out")
          [("datasets/raw/pdb/1ABC.cif", "data")] "1ABC").success = true ∧
       (pdb_download_single_file (fun _ => NetResult.exc "timed out")
          [("datasets/raw/pdb/1ABC.cif", "data")] "1ABC").requests = 0) := by
  decide

/-- C6 amended: for the SAbDab variant the claim holds — a batch over
identifiers whose output files all exist performs zero network requests,
reports success ("Already downloaded") for every identifier, and leaves
filesystem and ledger untouched, so a second run over already-downloaded
identifiers is a no-op apart from its success reports. -/
theorem sabdab_second_run_no_requests (net : Net) (now : Int) (st : BatchState)
    (ids : List String)
    (h : ∀ pdb_id ∈ ids, hasFile st.fs (sabdab_output_path pdb_id) = true) :
    process_batch (sabdab_download_single_file net) now st ids =
      { st with results := st.results ++
          ids.map (fun pdb_id => (pdb_id, true, "Already downloaded " ++ pdb_id ++ ".pdb")) } := by
  induction ids generalizing st with
  | nil => simp [process_batch]
  | cons pdb_id rest ih =>
    have hhead := h pdb_id (List.mem_cons_self pdb_id rest)
    have hstep : process_one (sabdab_download_single_file net) now st pdb_id =
        { st with results := st.results ++
            [(pdb_id, true, "Already downloaded " ++ pdb_id ++ ".pdb")] } := by
      unfold process_one sabdab_download_single_file
      simp [hhead]
    have hshow : process_batch (sabdab_download_single_file net) now st (pdb_id :: rest) =
        process_batch (sabdab_download_single_file net) now
          (process_one (sabdab_download_single_file net) now st pdb_id) rest := rfl
    rw [hshow, hstep,
      ih { st with results := st.results ++
            [(pdb_id, true, "Already downloaded " ++ pdb_id ++ ".pdb")] }
        (fun i hi => h i (List.mem_cons_of_mem _ hi))]
    simp

/-- C6 amended witness: one identifier whose output file exists — the batch
issues zero requests and reports success. -/
theorem sabdab_second_run_no_requests_witness :
    process_batch (sabdab_download_single_file (fun _ => NetResult.exc "unreachable")) 0
        ⟨[("datasets/raw/sabdab/1ABC.pdb", "d")], [], 0, []⟩ ["1ABC"] =
      ⟨[("datasets/raw/sabdab/1ABC.pdb", "d")], [], 0,
        [("1ABC", true, "Already downloaded " ++ "1ABC" ++ ".pdb")]⟩ := by
  have := sabdab_second_run_no_requests (fun _ => NetResult.exc "unreachable") 0
    ⟨[("datasets/raw/sabdab/1ABC.pdb", "d")], [], 0, []⟩ ["1ABC"] (by decide)
  simpa using this

/-- C7: every fetch outcome of a batch is consumed exactly once (one result
entry per submitted identifier); consuming a failed outcome performs exactly
one `record_failure` call for that identifier before the batch moves on;
consuming a successful outcome leaves the ledger of that step untouched; and
a batch whose fetches all succeed leaves the failure ledger completely
unchanged — in particular prior failure records survive the batch. -/
theorem process_batch_outcomes :
    (∀ (fetch : Fetch) (now : Int) (st : BatchState) (ids : List String),
      (process_batch fetch now st ids).results.length =
        st.results.length + ids.length) ∧
    (∀ (fetch : Fetch) (now : Int) (st : BatchState) (pdb_id : String)
        (rest : List String), (fetch st.fs pdb_id).success = false →
      process_batch fetch now st (pdb_id :: rest) =
        process_batch fetch now
          ⟨(fetch st.fs pdb_id).fs,
           record_failure st.led pdb_id (fetch st.fs pdb_id).message now,
           st.requests + (fetch st.fs pdb_id).requests,
           st.results ++ [(pdb_id, false, (fetch st.fs pdb_id).message)]⟩ rest) ∧
    (∀ (fetch : Fetch) (now : Int) (st : BatchState) (pdb_id : String)
        (rest : List String), (fetch st.fs pdb_id).success = true →
      process_batch fetch now st (pdb_id :: rest) =
        process_batch fetch now
          ⟨(fetch st.fs pdb_id).fs, st.led,
           st.requests + (fetch st.fs pdb_id).requests,
           st.results ++ [(pdb_id, true, (fetch st.fs pdb_id).message)]⟩ rest) ∧
    (∀ (fetch : Fetch) (now : Int) (st : BatchState) (ids : List String),
      (∀ (fs : Fs) (pdb_id : String), pdb_id ∈ ids → (fetch fs pdb_id).success = true) →
      (process_batch fetch now st ids).led = st.led) := by
  refine ⟨?_, ?_, ?_, ?_⟩
  · intro fetch now st ids
    induction ids generalizing st with
    | nil => simp [process_batch]
    | cons pdb_id rest ih =>
      have : process_batch fetch now st (pdb_id :: rest) =
          process_batch fetch now (process_one fetch now st pdb_id) rest := rfl
      rw [this, ih]
      simp [process_one]
      omega
  · intro fetch now st pdb_id rest hfail
    have : process_batch fetch now st (pdb_id :: rest) =
        process_batch fetch now (process_one fetch now st pdb_id) rest := rfl
    rw [this]
    congr 1
    unfold process_one
    simp [hfail]
  · intro fetch now st pdb_id rest hsucc
    have : process_batch fetch now st (pdb_id :: rest) =
        process_batch fetch now (process_one fetch now st pdb_id) rest := rfl
    rw [this]
    congr 1
    unfold process_one
    simp [hsucc]
  · intro fetch now st ids h
    induction ids generalizing st with
    | nil => rfl
    | cons pdb_id rest ih =>
      have hstep : process_batch fetch now st (pdb_id :: rest) =
          process_batch fetch now (process_one fetch now st pdb_id) rest := rfl
      have hsucc := h st.fs pdb_id (List.mem_cons_self pdb_id rest)
      have hled : (process_one fetch now st pdb_id).led = st.led := by
        unfold process_one
        simp [hsucc]
      rw [hstep, ih _ (fun fs i hi => h fs i (List.mem_cons_of_mem _ hi)), hled]

/-- C7 witness: a two-identifier batch with an always-succeeding fetch
produces one outcome per identifier and leaves a pre-existing failure record
in the ledger untouched. -/
theorem process_batch_outcomes_witness :
    (process_batch (fun fs _ => ⟨true, "ok", fs, 1⟩) 0
        ⟨[], [("OLD", ⟨"OLD", "old error", 2, 1⟩)], 0, []⟩ ["1ABC", "2XYZ"]).led =
      [("OLD", ⟨"OLD", "old error", 2, 1⟩)] ∧
    (process_batch (fun fs _ => ⟨true, "ok", fs, 1⟩) 0
        ⟨[], [("OLD", ⟨"OLD", "old error", 2, 1⟩)], 0, []⟩ ["1ABC", "2XYZ"]).results.length =
      0 + 2 :=
  ⟨process_batch_outcomes.2.2.2 (fun fs _ => ⟨true, "ok", fs, 1⟩) 0
      ⟨[], [("OLD", ⟨"OLD", "old error", 2, 1⟩)], 0, []⟩ ["1ABC", "2XYZ"]
      (fun _ _ _ => rfl),
   process_batch_outcomes.1 (fun fs _ => ⟨true, "ok", fs, 1⟩) 0
      ⟨[], [("OLD", ⟨"OLD", "old error", 2, 1⟩)], 0, []⟩ ["1ABC", "2XYZ"]⟩

/-- C2: the post-round prune, applied to a ledger entry: an entry of the
retried subset is removed when its attempt count reached the cap, removed
when its output artifact now exists on disk, and kept otherwise; entries
outside the retried subset are kept unchanged. -/
theorem prune_round_membership (led : Ledger) (retried : List String) (cap : Nat)
    (fs : Fs) (path : String → String) (p : String × DownloadFailure)
    (hp : p ∈ led) :
    (p.1 ∈ retried →
      (cap ≤ p.2.attempt → p ∉ prune_ledger led retried cap fs path) ∧
      (p.2.attempt < cap → hasFile fs (path p.1) = true →
        p ∉ prune_ledger led retried cap fs path) ∧
      (p.2.attempt < cap → hasFile fs (path p.1) = false →
        p ∈ prune_ledger led retried cap fs path)) ∧
    (p.1 ∉ retried → p ∈ prune_ledger led retried cap fs path) := by
  unfold prune_ledger
  constructor
  · intro hin
    refine ⟨?_, ?_, ?_⟩
    · intro hcap hmem
      rcases List.mem_filter.1 hmem with ⟨-, hcond⟩
      simp only [Bool.or_eq_true, Bool.not_eq_true', Bool.and_eq_true,
        decide_eq_true_eq, decide_eq_false_iff_not] at hcond
      rcases hcond with h1 | ⟨h2, -⟩
      · exact h1 hin
      · omega
    · intro _ hfile hmem
      rcases List.mem_filter.1 hmem with ⟨-, hcond⟩
      simp only [Bool.or_eq_true, Bool.not_eq_true', Bool.and_eq_true,
        decide_eq_true_eq, decide_eq_false_iff_not] at hcond
      rcases hcond with h1 | ⟨-, h3⟩
      · exact h1 hin
      · rw [hfile] at h3
        exact Bool.noConfusion h3
    · intro hlt hfile
      refine List.mem_filter.2 ⟨hp, ?_⟩
      simp only [Bool.or_eq_true, Bool.not_eq_true', Bool.and_eq_true,
        decide_eq_true_eq, decide_eq_false_iff_not]
      exact Or.inr ⟨hlt, by rw [hfile]⟩
  · intro hout
    refine List.mem_filter.2 ⟨hp, ?_⟩
    simp only [Bool.or_eq_true, Bool.not_eq_true', Bool.and_eq_true,
      decide_eq_true_eq, decide_eq_false_iff_not]
    exact Or.inl hout

/-- C2 witness: with cap 3, a retried entry at attempt 3 is pruned, a retried
entry at attempt 2 with no artifact on disk stays, and an entry outside the
retried subset stays. -/
theorem prune_round_membership_witness :
    ("1ABC", (⟨"1ABC", "e1", 3, 0⟩ : DownloadFailure)) ∉
      prune_ledger
        [("1ABC", ⟨"1ABC", "e1", 3, 0⟩), ("2XYZ", ⟨"2XYZ", "e2", 2, 0⟩),
         ("3PQR", ⟨"3PQR", "e3", 3, 0⟩)]
        ["1ABC", "2XYZ"] 3 [] pdb_output_path ∧
    ("2XYZ", (⟨"2XYZ", "e2", 2, 0⟩ : DownloadFailure)) ∈
      prune_ledger
        [("1ABC", ⟨"1ABC", "e1", 3, 0⟩), ("2XYZ", ⟨"2XYZ", "e2", 2, 0⟩),
         ("3PQR", ⟨"3PQR", "e3", 3, 0⟩)]
        ["1ABC", "2XYZ"] 3 [] pdb_output_path ∧
    ("3PQR", (⟨"3PQR", "e3", 3, 0⟩ : DownloadFailure)) ∈
      prune_ledger
        [("1ABC", ⟨"1ABC", "e1", 3, 0⟩), ("2XYZ", ⟨"2XYZ", "e2", 2, 0⟩),
         ("3PQR", ⟨"3PQR", "e3", 3, 0⟩)]
        ["1ABC", "2XYZ"] 3 [] pdb_output_path :=
  ⟨((prune_round_membership _ ["1ABC", "2XYZ"] 3 [] pdb_output_path
      ("1ABC", ⟨"1ABC", "e1", 3, 0⟩) (by decide)).1 (by decide)).1 (by decide),
   ((prune_round_membership _ ["1ABC", "2XYZ"] 3 [] pdb_output_path
      ("2XYZ", ⟨"2XYZ", "e2", 2, 0⟩) (by decide)).1 (by decide)).2.2 (by decide) (by decide),
   (prune_round_membership _ ["1ABC", "2XYZ"] 3 [] pdb_output_path
      ("3PQR", ⟨"3PQR", "e3", 3, 0⟩) (by decide)).2 (by decide)⟩

/-- C1 (code bug): the identifier `"AAAA"` fails on every attempt — the
network always raises — so by the claim the final report must contain exactly
one line for it with attempt count 3.  Instead the full run (batch pass plus
retry drain, 13 loop iterations suffice) ends with the exhausted entry deleted
from the ledger by the drain's prune, the ledger empty, and
`_save_failure_summary` therefore writing nothing at all: the report is
`none`, silently dropping the failure. -/
theorem pdb_full_run_all_fail_report_empty :
    download_structures_run
        (pdb_download_single_file (fun _ => NetResult.exc "Connection refused"))
        pdb_output_path "datasets/failed_downloads_pdb_cif.txt" 13 [] ["AAAA"] 0 =
      some ([], [], none) := by
  decide

/-! ## Retry-drain termination (C3) -/

/-- A ledger whose only entry already has its attempt count at the cap is
never eligible (the `attempt < cap` test fails) and never pruned (the prune
loop skips keys outside the retried subset), so every drain iteration merely
sleeps and the loop never exits. -/
theorem drain_stuck_aux (fetch : Fetch) (path : String → String) :
    ∀ (n : Nat) (fs : Fs) (now : Int) (r q : Nat),
      drain_fuel fetch path 3 300 60 n
        ⟨fs, [("AAAA", ⟨"AAAA", "err", 3, 0⟩)], now, r, q⟩ = none := by
  intro n
  induction n with
  | zero => intro fs now r q; rfl
  | succ n ih =>
    intro fs now r q
    have key : drain_fuel fetch path 3 300 60 (n + 1)
          ⟨fs, [("AAAA", ⟨"AAAA", "err", 3, 0⟩)], now, r, q⟩ =
        drain_fuel fetch path 3 300 60 n
          ⟨fs, [("AAAA", ⟨"AAAA", "err", 3, 0⟩)], now + 60, r, q⟩ := rfl
    rw [key]
    exact ih fs (now + 60) r q

/-- C3 counterexample: the drain loop does not terminate for every initial
ledger.  With a single entry whose attempt count already equals the cap 3,
the loop spins in its waiting state forever: no amount of fuel makes
`_retry_failed_downloads` return. -/
theorem drain_nonterminating_on_exhausted_entry :
    ¬ ∃ (n : Nat) (s : DrainState),
      drain_fuel
        (pdb_download_single_file (fun _ => NetResult.exc "Connection refused"))
        pdb_output_path 3 300 60 n
        ⟨[], [("AAAA", ⟨"AAAA", "err", 3, 0⟩)], 1000, 0, 0⟩ = some s := by
  rintro ⟨n, s, h⟩
  rw [drain_stuck_aux] at h
  exact Option.noConfusion h

/-- Σ over the ledger of `cap − attempt`: the strictly decreasing measure of
productive retry rounds. -/
def remaining_budget (cap : Nat) (led : Ledger) : Nat :=
  (led.map (fun p => cap - p.2.attempt)).sum

/-- Earliest last-failure time in the ledger (0 for the empty ledger). -/
def min_timestamp : Ledger → Int
  | [] => 0
  | [p] => p.2.timestamp
  | p :: q :: rest => min p.2.timestamp (min_timestamp (q :: rest))

/-- Number of 60-second sleeps until the earliest entry passes the 300-second
cooldown. -/
def wait_steps (led : Ledger) (now : Int) : Nat :=
  ((min_timestamp led + 300 - now).toNat + 59) / 60

theorem min_timestamp_is_mem :
    ∀ led : Ledger, led ≠ [] → ∃ p ∈ led, min_timestamp led = p.2.timestamp := by
  intro led
  induction led with
  | nil => intro h; exact absurd rfl h
  | cons p rest ih =>
    intro _
    cases rest with
    | nil => exact ⟨p, List.mem_cons_self p [], rfl⟩
    | cons q rest2 =>
      rcases ih (by simp) with ⟨w, hw, hmin⟩
      by_cases hle : p.2.timestamp ≤ min_timestamp (q :: rest2)
      · refine ⟨p, List.mem_cons_self p (q :: rest2), ?_⟩
        show min p.2.timestamp (min_timestamp (q :: rest2)) = p.2.timestamp
        exact min_eq_left hle
      · refine ⟨w, List.mem_cons_of_mem p hw, ?_⟩
        show min p.2.timestamp (min_timestamp (q :: rest2)) = w.2.timestamp
        rw [min_eq_right (le_of_not_le hle)]
        exact hmin

theorem budget_pos_of_nonempty (cap : Nat) (led : Ledger)
    (hlt : ∀ p ∈ led, p.2.attempt < cap) (h : led ≠ []) :
    0 < remaining_budget cap led := by
  cases led with
  | nil => exact absurd rfl h
  | cons p rest =>
    have := hlt p (List.mem_cons_self p rest)
    unfold remaining_budget
    rw [List.map_cons, List.sum_cons]
    omega

theorem budget_le_cap_mul (cap : Nat) (led : Ledger) :
    remaining_budget cap led ≤ cap * led.length := by
  induction led with
  | nil => simp [remaining_budget]
  | cons p rest ih =>
    unfold remaining_budget at ih ⊢
    rw [List.map_cons, List.sum_cons, List.length_cons]
    calc cap - p.2.attempt + (rest.map (fun p => cap - p.2.attempt)).sum
        ≤ cap + cap * rest.length := Nat.add_le_add (Nat.sub_le _ _) ih
      _ = cap * (rest.length + 1) := by ring

theorem budget_filter_le (cap : Nat) (led : Ledger)
    (pred : String × DownloadFailure → Bool) :
    remaining_budget cap (led.filter pred) ≤ remaining_budget cap led := by
  unfold remaining_budget
  exact List.Sublist.sum_le_sum
    (List.Sublist.map _ (List.filter_sublist led)) (fun a _ => Nat.zero_le a)

theorem ledger_keys_map_keep_fst (g : String × DownloadFailure → String × DownloadFailure)
    (hg : ∀ p, (g p).1 = p.1) :
    ∀ led : Ledger, ledger_keys (led.map g) = ledger_keys led := by
  intro led
  induction led with
  | nil => rfl
  | cons p rest ih =>
    show (g p).1 :: ledger_keys (rest.map g) = p.1 :: ledger_keys rest
    rw [hg p, ih]

theorem ledger_keys_filter_sublist (pred : String × DownloadFailure → Bool)
    (led : Ledger) :
    List.Sublist (ledger_keys (led.filter pred)) (ledger_keys led) :=
  List.Sublist.map _ (List.filter_sublist led)

theorem record_failure_present_eq_map (led : Ledger) (pdb_id msg : String) (now : Int)
    (h : (List.lookup pdb_id led).isSome = true) :
    record_failure led pdb_id msg now =
      led.map (fun p =>
        if p.1 = pdb_id then (pdb_id, ⟨p.2.pdb_id, msg, p.2.attempt + 1, now⟩) else p) := by
  unfold record_failure
  rw [if_pos h]

/-- Under an always-failing fetch, a batch over a duplicate-free subset of the
ledger's keys maps each retried entry to attempt + 1 with the fresh timestamp
(and some message), and leaves every other entry unchanged. -/
theorem process_batch_all_fail_map (fetch : Fetch)
    (hfail : ∀ (fs : Fs) (pdb_id : String), (fetch fs pdb_id).success = false)
    (now : Int) :
    ∀ (ids : List String) (st : BatchState), ids.Nodup →
      (∀ pdb_id ∈ ids, pdb_id ∈ ledger_keys st.led) →
      ∃ m : String → String,
        (process_batch fetch now st ids).led =
          st.led.map (fun p =>
            if p.1 ∈ ids then (p.1, ⟨p.2.pdb_id, m p.1, p.2.attempt + 1, now⟩)
            else p) := by
  intro ids
  induction ids with
  | nil =>
    intro st _ _
    refine ⟨fun _ => "", ?_⟩
    simp [process_batch]
  | cons pdb_id rest ih =>
    intro st hnd hkeys
    have hnotin : pdb_id ∉ rest := (List.nodup_cons.1 hnd).1
    have hfl := hfail st.fs pdb_id
    have hpresent : (List.lookup pdb_id st.led).isSome = true :=
      (lookup_isSome_iff_mem_keys pdb_id st.led).2
        (hkeys pdb_id (List.mem_cons_self _ _))
    have hstep : process_batch fetch now st (pdb_id :: rest) =
        process_batch fetch now (process_one fetch now st pdb_id) rest := rfl
    have hled1 : (process_one fetch now st pdb_id).led =
        st.led.map (fun p =>
          if p.1 = pdb_id then
            (pdb_id, ⟨p.2.pdb_id, (fetch st.fs pdb_id).message, p.2.attempt + 1, now⟩)
          else p) := by
      unfold process_one
      simp only [hfl, Bool.false_eq_true, if_false]
      exact record_failure_present_eq_map st.led pdb_id _ now hpresent
    have hkeys1 : ledger_keys (process_one fetch now st pdb_id).led =
        ledger_keys st.led := by
      rw [hled1]
      refine ledger_keys_map_keep_fst _ ?_ st.led
      intro p
      by_cases hp : p.1 = pdb_id
      · simp [hp]
      · simp [hp]
    rcases ih (process_one fetch now st pdb_id) (List.nodup_cons.1 hnd).2
        (fun i hi => by rw [hkeys1]; exact hkeys i (List.mem_cons_of_mem _ hi)) with
      ⟨m2, hm2⟩
    refine ⟨fun x => if x = pdb_id then (fetch st.fs pdb_id).message else m2 x, ?_⟩
    rw [hstep, hm2, hled1, List.map_map]
    refine congrArg (st.led.map ·) (funext fun p => ?_)
    by_cases hp : p.1 = pdb_id
    · simp only [Function.comp_apply, hp, if_true, if_pos rfl]
      rw [if_neg hnotin]
      have hmem : (pdb_id : String) ∈ pdb_id :: rest := List.mem_cons_self _ _
      rw [if_pos hmem]
    · simp only [Function.comp_apply, hp, if_false, if_neg hp]
      by_cases hr2 : p.1 ∈ rest
      · rw [if_pos hr2, if_pos (List.mem_cons_of_mem _ hr2)]
      · rw [if_neg hr2, if_neg (by simp [hp, hr2])]

theorem drain_step_wait (fetch : Fetch) (path : String → String) (cap : Nat)
    (cooldown poll : Int) (s : DrainState)
    (h : retry_ids s.led s.now cap cooldown = []) :
    drain_step fetch path cap cooldown poll s = { s with now := s.now + poll } := by
  unfold drain_step
  simp [h]

theorem drain_step_round (fetch : Fetch) (path : String → String) (cap : Nat)
    (cooldown poll : Int) (s : DrainState)
    (h : retry_ids s.led s.now cap cooldown ≠ []) :
    drain_step fetch path cap cooldown poll s =
      ⟨(process_batch fetch s.now ⟨s.fs, s.led, s.requests, []⟩
          (retry_ids s.led s.now cap cooldown)).fs,
       prune_ledger
         (process_batch fetch s.now ⟨s.fs, s.led, s.requests, []⟩
           (retry_ids s.led s.now cap cooldown)).led
         (retry_ids s.led s.now cap cooldown) cap
         (process_batch fetch s.now ⟨s.fs, s.led, s.requests, []⟩
           (retry_ids s.led s.now cap cooldown)).fs path,
       s.now, s.rounds + 1,
       (process_batch fetch s.now ⟨s.fs, s.led, s.requests, []⟩
         (retry_ids s.led s.now cap cooldown)).requests⟩ := by
  unfold drain_step
  rw [if_neg (by simpa [List.isEmpty_iff] using h)]

theorem drain_fuel_succ_of_empty (fetch : Fetch) (path : String → String) (cap : Nat)
    (cooldown poll : Int) (n : Nat) (s : DrainState) (h : s.led = []) :
    drain_fuel fetch path cap cooldown poll (n + 1) s = some s := by
  show (if s.led.isEmpty then some s else _) = some s
  rw [if_pos (by simpa [List.isEmpty_iff] using h)]

theorem drain_fuel_succ_of_nonempty (fetch : Fetch) (path : String → String)
    (cap : Nat) (cooldown poll : Int) (n : Nat) (s : DrainState) (h : s.led ≠ []) :
    drain_fuel fetch path cap cooldown poll (n + 1) s =
      drain_fuel fetch path cap cooldown poll n
        (drain_step fetch path cap cooldown poll s) := by
  show (if s.led.isEmpty then some s else _) = _
  rw [if_neg (by simpa [List.isEmpty_iff] using h)]

theorem wait_steps_decrease (led : Ledger) (now : Int) (cap : Nat)
    (hled : led ≠ []) (hlt : ∀ p ∈ led, p.2.attempt < cap)
    (hre : retry_ids led now cap 300 = []) :
    wait_steps led (now + 60) < wait_steps led now := by
  obtain ⟨p, hp, hmin⟩ := min_timestamp_is_mem led hled
  have hnot : ¬ (p.2.attempt < cap ∧ now - p.2.timestamp ≥ 300) := by
    rintro ⟨h1, h2⟩
    have : p.1 ∈ retry_ids led now cap 300 :=
      (mem_retry_ids_iff led now cap 300 p.1).2 ⟨p.2, by simpa using hp, h1, h2⟩
    rw [hre] at this
    exact (List.not_mem_nil _) this
  have h1 := hlt p hp
  have hv : 0 < min_timestamp led + 300 - now := by
    rw [hmin]
    omega
  unfold wait_steps
  omega

/-- Case analysis for one ledger entry under the bump applied by an
all-failing round. -/
theorem bump_entry_cases (retried : List String) (m : String → String) (now : Int)
    (p : String × DownloadFailure) :
    (p.1 ∈ retried ∧
      (if p.1 ∈ retried then
        (p.1, (⟨p.2.pdb_id, m p.1, p.2.attempt + 1, now⟩ : DownloadFailure))
      else p) = (p.1, ⟨p.2.pdb_id, m p.1, p.2.attempt + 1, now⟩)) ∨
    (p.1 ∉ retried ∧
      (if p.1 ∈ retried then
        (p.1, (⟨p.2.pdb_id, m p.1, p.2.attempt + 1, now⟩ : DownloadFailure))
      else p) = p) := by
  by_cases h : p.1 ∈ retried
  · exact Or.inl ⟨h, if_pos h⟩
  · exact Or.inr ⟨h, if_neg h⟩

/-- One productive retry round under an always-failing fetch keeps every
surviving attempt count below the cap, keeps the ledger keys duplicate-free,
strictly decreases the remaining budget, and counts one round. -/
theorem drain_round_invariant (fetch : Fetch) (path : String → String) (cap : Nat)
    (hfail : ∀ (fs : Fs) (pdb_id : String), (fetch fs pdb_id).success = false)
    (s : DrainState)
    (hlt : ∀ p ∈ s.led, p.2.attempt < cap)
    (hnd : (ledger_keys s.led).Nodup)
    (hre : retry_ids s.led s.now cap 300 ≠ []) :
    (∀ p ∈ (drain_step fetch path cap 300 60 s).led, p.2.attempt < cap) ∧
    (ledger_keys (drain_step fetch path cap 300 60 s).led).Nodup ∧
    remaining_budget cap (drain_step fetch path cap 300 60 s).led <
      remaining_budget cap s.led ∧
    (drain_step fetch path cap 300 60 s).rounds = s.rounds + 1 := by
  rw [drain_step_round fetch path cap 300 60 s hre]
  have hsub : ∀ i ∈ retry_ids s.led s.now cap 300, i ∈ ledger_keys s.led := by
    intro i hi
    rcases (mem_retry_ids_iff s.led s.now cap 300 i).1 hi with ⟨f, hmem, -, -⟩
    exact List.mem_map.2 ⟨(i, f), hmem, rfl⟩
  have hndr : (retry_ids s.led s.now cap 300).Nodup := by
    refine List.Nodup.sublist ?_ hnd
    exact List.Sublist.map _ (List.filter_sublist _)
  obtain ⟨m, hm⟩ := process_batch_all_fail_map fetch hfail s.now
    (retry_ids s.led s.now cap 300) ⟨s.fs, s.led, s.requests, []⟩ hndr
    (fun i hi => hsub i hi)
  have hkeysB : ledger_keys
      (process_batch fetch s.now ⟨s.fs, s.led, s.requests, []⟩
        (retry_ids s.led s.now cap 300)).led = ledger_keys s.led := by
    rw [hm]
    refine ledger_keys_map_keep_fst _ ?_ s.led
    intro p
    rcases bump_entry_cases (retry_ids s.led s.now cap 300) m s.now p with
      ⟨-, heq⟩ | ⟨-, heq⟩ <;> rw [heq]
  refine ⟨?_, ?_, ?_, rfl⟩
  · intro q hq
    rcases List.mem_filter.1 hq with ⟨hqB, hpred⟩
    by_cases hq1 : q.1 ∈ retry_ids s.led s.now cap 300
    · rw [decide_eq_true hq1] at hpred
      simp only [Bool.not_true, Bool.false_or, Bool.and_eq_true,
        decide_eq_true_eq] at hpred
      exact hpred.1
    · rw [hm] at hqB
      rcases List.mem_map.1 hqB with ⟨p, hp, hgp⟩
      rcases bump_entry_cases (retry_ids s.led s.now cap 300) m s.now p with
        ⟨hin, heq⟩ | ⟨-, heq⟩
      · rw [heq] at hgp
        rw [← hgp] at hq1
        exact absurd hin hq1
      · rw [heq] at hgp
        rw [← hgp]
        exact hlt p hp
  · refine List.Nodup.sublist ?_ (hkeysB ▸ hnd)
    exact ledger_keys_filter_sublist _ _
  · have hle : remaining_budget cap
        (prune_ledger
          (process_batch fetch s.now ⟨s.fs, s.led, s.requests, []⟩
            (retry_ids s.led s.now cap 300)).led
          (retry_ids s.led s.now cap 300) cap
          (process_batch fetch s.now ⟨s.fs, s.led, s.requests, []⟩
            (retry_ids s.led s.now cap 300)).fs path) ≤
        remaining_budget cap
          (process_batch fetch s.now ⟨s.fs, s.led, s.requests, []⟩
            (retry_ids s.led s.now cap 300)).led :=
      budget_filter_le cap _ _
    refine lt_of_le_of_lt hle ?_
    rw [hm]
    unfold remaining_budget
    rw [List.map_map]
    refine List.sum_lt_sum _ _ ?_ ?_
    · intro p hp
      rcases bump_entry_cases (retry_ids s.led s.now cap 300) m s.now p with
        ⟨-, heq⟩ | ⟨-, heq⟩ <;>
        simp only [Function.comp_apply, heq] <;> omega
    · rcases List.exists_mem_of_ne_nil _ hre with ⟨i, hi⟩
      rcases (mem_retry_ids_iff s.led s.now cap 300 i).1 hi with ⟨f, hmem, hatt, -⟩
      refine ⟨(i, f), hmem, ?_⟩
      rcases bump_entry_cases (retry_ids s.led s.now cap 300) m s.now (i, f) with
        ⟨-, heq⟩ | ⟨hout, -⟩
      · simp only [Function.comp_apply, heq]
        omega
      · exact absurd hi hout

/-- Core termination argument: strong induction on the remaining budget, with
an inner induction on the number of cooldown sleeps still needed. -/
theorem drain_term_aux (fetch : Fetch) (path : String → String) (cap : Nat)
    (hfail : ∀ (fs : Fs) (pdb_id : String), (fetch fs pdb_id).success = false) :
    ∀ (k w : Nat) (s : DrainState),
      remaining_budget cap s.led ≤ k → wait_steps s.led s.now ≤ w →
      (∀ p ∈ s.led, p.2.attempt < cap) → (ledger_keys s.led).Nodup →
      ∃ (n : Nat) (sf : DrainState),
        drain_fuel fetch path cap 300 60 n s = some sf ∧ sf.led = [] ∧
        sf.rounds ≤ s.rounds + remaining_budget cap s.led := by
  intro k
  induction k with
  | zero =>
    intro w s hb _ hlt _
    have hled : s.led = [] := by
      by_contra hne
      have := budget_pos_of_nonempty cap s.led hlt hne
      omega
    exact ⟨1, s, drain_fuel_succ_of_empty fetch path cap 300 60 0 s hled, hled,
      Nat.le_add_right _ _⟩
  | succ k ihk =>
    intro w
    induction w with
    | zero =>
      intro s hb hw hlt hnd
      by_cases hled : s.led = []
      · exact ⟨1, s, drain_fuel_succ_of_empty fetch path cap 300 60 0 s hled, hled,
          Nat.le_add_right _ _⟩
      · by_cases hre : retry_ids s.led s.now cap 300 = []
        · exfalso
          have := wait_steps_decrease s.led s.now cap hled hlt hre
          omega
        · obtain ⟨ha, hb2, hdec, hrounds⟩ :=
            drain_round_invariant fetch path cap hfail s hlt hnd hre
          obtain ⟨n, sf, hrun, hempty, hr⟩ :=
            ihk (wait_steps (drain_step fetch path cap 300 60 s).led
                  (drain_step fetch path cap 300 60 s).now)
              (drain_step fetch path cap 300 60 s) (by omega) le_rfl ha hb2
          refine ⟨n + 1, sf, ?_, hempty, by omega⟩
          rw [drain_fuel_succ_of_nonempty fetch path cap 300 60 n s hled]
          exact hrun
    | succ w ihw =>
      intro s hb hw hlt hnd
      by_cases hled : s.led = []
      · exact ⟨1, s, drain_fuel_succ_of_empty fetch path cap 300 60 0 s hled, hled,
          Nat.le_add_right _ _⟩
      · by_cases hre : retry_ids s.led s.now cap 300 = []
        · have hstep := drain_step_wait fetch path cap 300 60 s hre
          have hwd := wait_steps_decrease s.led s.now cap hled hlt hre
          obtain ⟨n, sf, hrun, hempty, hr⟩ :=
            ihw { s with now := s.now + 60 } hb (by
              show wait_steps s.led (s.now + 60) ≤ w
              omega) hlt hnd
          refine ⟨n + 1, sf, ?_, hempty, hr⟩
          rw [drain_fuel_succ_of_nonempty fetch path cap 300 60 n s hled, hstep]
          exact hrun
        · obtain ⟨ha, hb2, hdec, hrounds⟩ :=
            drain_round_invariant fetch path cap hfail s hlt hnd hre
          obtain ⟨n, sf, hrun, hempty, hr⟩ :=
            ihk (wait_steps (drain_step fetch path cap 300 60 s).led
                  (drain_step fetch path cap 300 60 s).now)
              (drain_step fetch path cap 300 60 s) (by omega) le_rfl ha hb2
          refine ⟨n + 1, sf, ?_, hempty, by omega⟩
          rw [drain_fuel_succ_of_nonempty fetch path cap 300 60 n s hled]
          exact hrun

/-- C3 amended: the drain loop terminates, and exits exactly with an empty
ledger, for every initial ledger in which every entry's attempt count is
strictly below the cap (which holds for any ledger the batch pass can hand
over without duplicate identifiers) and whose keys are duplicate-free, even
when every fetch always fails; the number of productive retry rounds is
bounded by the remaining budget, hence by cap rounds per identifier.  An
initial entry whose attempt count already reached the cap instead makes the
loop spin forever (see the counterexample). -/
theorem drain_terminates_of_attempts_lt_cap (fetch : Fetch)
    (path : String → String) (cap : Nat)
    (hfail : ∀ (fs : Fs) (pdb_id : String), (fetch fs pdb_id).success = false)
    (s : DrainState)
    (hlt : ∀ p ∈ s.led, p.2.attempt < cap)
    (hnd : (ledger_keys s.led).Nodup) :
    ∃ (n : Nat) (sf : DrainState),
      drain_fuel fetch path cap 300 60 n s = some sf ∧ sf.led = [] ∧
      sf.rounds ≤ s.rounds + remaining_budget cap s.led ∧
      remaining_budget cap s.led ≤ cap * s.led.length := by
  obtain ⟨n, sf, hrun, hempty, hr⟩ :=
    drain_term_aux fetch path cap hfail (remaining_budget cap s.led)
      (wait_steps s.led s.now) s le_rfl le_rfl hlt hnd
  exact ⟨n, sf, hrun, hempty, hr, budget_le_cap_mul cap s.led⟩

/-- C3 amended witness: a single entry at attempt 1 under the PDB fetcher with
the network always raising — the drain terminates with an empty ledger in at
most 2 rounds. -/
theorem drain_terminates_witness :
    ∃ (n : Nat) (sf : DrainState),
      drain_fuel
        (pdb_download_single_file (fun _ => NetResult.exc "Connection refused"))
        pdb_output_path 3 300 60 n
        ⟨[], [("AAAA", ⟨"AAAA", "err", 1, 0⟩)], 0, 0, 0⟩ = some sf ∧
      sf.led = [] ∧
      sf.rounds ≤ (⟨[], [("AAAA", ⟨"AAAA", "err", 1, 0⟩)], 0, 0, 0⟩ : DrainState).rounds +
        remaining_budget 3 [("AAAA", ⟨"AAAA", "err", 1, 0⟩)] ∧
      remaining_budget 3 [("AAAA", ⟨"AAAA", "err", 1, 0⟩)] ≤
        3 * [("AAAA", (⟨"AAAA", "err", 1, 0⟩ : DownloadFailure))].length :=
  drain_terminates_of_attempts_lt_cap
    (pdb_download_single_file (fun _ => NetResult.exc "Connection refused"))
    pdb_output_path 3 (fun _ _ => rfl)
    ⟨[], [("AAAA", ⟨"AAAA", "err", 1, 0⟩)], 0, 0, 0⟩
    (by decide) (by decide)
